import Mathlib

/-!
Shallow embedding of the Portenta X8 `x8h7` SPI aggregator driver
(`src/x8h7_drv.c`, declarations in `src/x8h7.h`).

Byte buffers are modelled as total functions `Nat → Nat`; a read applies
`% 256` (a byte buffer holds bytes), a write stores the value `% 256`.
Multi-byte fields are little-endian, as in the packed C structs
(`x8h7_pkthdr_t`: u16 size at offset 0, u16 checksum at offset 2;
`x8h7_subpkt_t`: u8 peripheral, u8 opcode, u16 size).

The parse loop of `pkt_parse` is a `do { } while (size > 0)` loop whose
u16 counter can wrap, so the C loop need not terminate; the embedding
takes an explicit fuel argument and returns both the list of dispatched
packets (in handler-invocation order) and the list of byte offsets read
from the receive buffer.
-/

/-- `X8H7_BUF_SIZE` from `x8h7.h`. -/
def X8H7_BUF_SIZE : Nat := 256

/-- `FIXED_PACKET_LEN` from `x8h7.h`. -/
def FIXED_PACKET_LEN : Nat := X8H7_BUF_SIZE

/-- `X8H7_PKT_SIZE` from `x8h7.h` (`X8H7_BUF_SIZE - 8`). -/
def X8H7_PKT_SIZE : Nat := X8H7_BUF_SIZE - 8

/-- `X8H7_PERIPH_NUM` from `x8h7_drv.c`. -/
def X8H7_PERIPH_NUM : Nat := 16

/-- Read one byte from a buffer. -/
def get8 (b : Nat → Nat) (i : Nat) : Nat := b i % 256

/-- Write one byte into a buffer. -/
def set8 (b : Nat → Nat) (i v : Nat) : Nat → Nat :=
  fun j => if j = i then v % 256 else b j

/-- Read a little-endian u16 at offset `i`. -/
def get16 (b : Nat → Nat) (i : Nat) : Nat := get8 b i + 256 * get8 b (i + 1)

/-- Write a little-endian u16 at offset `i`. -/
def set16 (b : Nat → Nat) (i v : Nat) : Nat → Nat :=
  set8 (set8 b i (v % 256)) (i + 1) (v / 256)

/-- `memset(ptr, 0, len)` when `src = none` (NULL data pointer), and
`memcpy(ptr, src, len)` when `src = some d`, at offset `off`. -/
def writeBytes (b : Nat → Nat) (off len : Nat) (src : Option (Nat → Nat)) : Nat → Nat :=
  fun j =>
    if off ≤ j ∧ j < off + len then
      match src with
      | none => 0
      | some d => d (j - off) % 256
    else b j

/-- u16 subtraction with wraparound, modelling `uint16_t size -= e`. -/
def sub16 (a e : Nat) : Nat := (a % 65536 + (65536 - e % 65536)) % 65536

/-- The all-zero buffer (`devm_kzalloc`-ed state). -/
def zeroBuf : Nat → Nat := fun _ => 0

/-- The byte a payload write stores at payload index `i`: zero for a NULL
data pointer (`memset`), the source byte otherwise (`memcpy`). -/
def payloadByte (src : Option (Nat → Nat)) (i : Nat) : Nat :=
  match src with
  | none => 0
  | some d => d i % 256

/--
`x8h7_pkt_enq` from `x8h7_drv.c`: append one sub-packet to the outgoing
frame buffer. Returns `(ret, txb, txl)`: the C return value (`0` or
`-ENOMEM = -12`), the new tx buffer and the new `x8h7_txl`.
-/
def x8h7_pkt_enq (peripheral opcode size : Nat) (data : Option (Nat → Nat))
    (txb : Nat → Nat) (txl : Nat) : Int × (Nat → Nat) × Nat :=
  let hs := get16 txb 0
  if hs + 4 + size < X8H7_BUF_SIZE then
    let off := 4 + hs
    let b1 := set8 txb off peripheral
    let b2 := set8 b1 (off + 1) opcode
    let b3 := set16 b2 (off + 2) size
    let b4 := writeBytes b3 (off + 4) size data
    let ns := (hs + 4 + size) % 65536
    let b5 := set16 b4 0 ns
    let b6 := set16 b5 2 (ns ^^^ 0x5555)
    (0, b6, ns)
  else
    (-12, txb, txl)

/-- The payload view handed to a hook (`x8h7_pkt_t` from `x8h7.h`). -/
structure x8h7_pkt where
  peripheral : Nat
  opcode : Nat
  size : Nat
  data : List Nat
deriving DecidableEq, Repr

/-- The bytes `get8 b (off) … get8 b (off+len-1)`. -/
def readBytes (b : Nat → Nat) (off len : Nat) : List Nat :=
  (List.range len).map (fun i => get8 b (off + i))

/--
The `do { } while (size > 0)` loop of `pkt_parse`, one fuel unit per
iteration. `pos` is the offset of the current `x8h7_subpkt_t` record in
the receive buffer; `size` is the running u16 byte counter. Returns the
dispatched packets in invocation order together with every rx-buffer
offset the iteration reads (sub-packet header fields, and the `memcpy`
source range when a hook is invoked).
-/
def parseLoop (rx : Nat → Nat) (hooks : Nat → Bool) :
    Nat → Nat → Nat → List x8h7_pkt × List Nat
  | _, _, 0 => ([], [])
  | pos, size, fuel + 1 =>
    let per := get8 rx pos
    let psz := get16 rx (pos + 2)
    if per < X8H7_PERIPH_NUM ∧ (per = 0 ∨ psz = 0) then
      ([], pos :: (if per = 0 then [] else [pos + 2, pos + 3]))
    else
      let disp :=
        if per < X8H7_PERIPH_NUM ∧ hooks per then
          let cs := if psz > X8H7_PKT_SIZE then X8H7_PKT_SIZE else psz
          [⟨per, get8 rx (pos + 1), cs, readBytes rx (pos + 4) cs⟩]
        else []
      let acc :=
        if per < X8H7_PERIPH_NUM ∧ hooks per then
          let cs := if psz > X8H7_PKT_SIZE then X8H7_PKT_SIZE else psz
          (pos + 1) :: (List.range cs).map (fun i => pos + 4 + i)
        else []
      let ns := sub16 size (4 + psz)
      let rest :=
        if ns > 0 then parseLoop rx hooks (pos + 4 + psz) ns fuel else ([], [])
      (disp ++ rest.1, pos :: (pos + 2) :: (pos + 3) :: acc ++ rest.2)

/--
`pkt_parse` from `x8h7_drv.c`: read the u16 header size (offsets 0 and 1)
and run the dispatch loop from offset 4. Note the C function checks no
checksum and the loop body runs at least once.
-/
def pkt_parse (rx : Nat → Nat) (hooks : Nat → Bool) (fuel : Nat) :
    List x8h7_pkt × List Nat :=
  let r := parseLoop rx hooks 4 (get16 rx 0) fuel
  (r.1, 0 :: 1 :: r.2)

/-- Result of one exchange (`x8h7_pkt_send` in `x8h7_drv.c`). -/
structure SendRes where
  ret : Int
  tap : Bool
  disp : List x8h7_pkt
  txb : Nat → Nat
  rxb : Nat → Nat
  txl : Nat

/--
`x8h7_pkt_send` from `x8h7_drv.c`. `trx` is the value returned by
`x8h7_spi_trx` (the code discards it); `rxIn` is the 256-byte frame the
transfer deposits in the receive buffer; `dbg` is whether an `x8h7_dbg`
diagnostic tap is installed. After the optional dispatch pass the code
unconditionally zeroes both 256-byte buffers and clears `x8h7_txl`, and
returns 0.
-/
def x8h7_pkt_send (trx : Int) (rxIn : Nat → Nat) (hooks : Nat → Bool)
    (dbg : Bool) (fuel : Nat) (txb rxb : Nat → Nat) (txl : Nat) : SendRes :=
  let _ := trx
  let _ := txl
  let rxb1 : Nat → Nat := fun i => if i < FIXED_PACKET_LEN then rxIn i % 256 else rxb i
  let hsz := get16 rxb1 0
  let tap := hsz ≠ 0 ∧ dbg
  let disp :=
    if hsz ≠ 0 ∧ ¬dbg then (pkt_parse rxb1 hooks fuel).1 else []
  { ret := 0
    tap := decide tap
    disp := disp
    txb := fun i => if i < X8H7_BUF_SIZE then 0 else txb i
    rxb := fun i => if i < X8H7_BUF_SIZE then 0 else rxb1 i
    txl := 0 }

/-- `x8h7_pkt_send_now` from `x8h7_drv.c`: take the lock and perform the
exchange of whatever is queued. -/
def x8h7_pkt_send_now (trx : Int) (rxIn : Nat → Nat) (hooks : Nat → Bool)
    (dbg : Bool) (fuel : Nat) (txb rxb : Nat → Nat) (txl : Nat) : SendRes :=
  x8h7_pkt_send trx rxIn hooks dbg fuel txb rxb txl

/-- `x8h7_threaded_isr` from `x8h7_drv.c`: the interrupt path performs the
same exchange and returns `IRQ_HANDLED` (1). -/
def x8h7_threaded_isr (trx : Int) (rxIn : Nat → Nat) (hooks : Nat → Bool)
    (dbg : Bool) (fuel : Nat) (txb rxb : Nat → Nat) (txl : Nat) : Int × SendRes :=
  (1, x8h7_pkt_send trx rxIn hooks dbg fuel txb rxb txl)

/--
`x8h7_pkt_send_sync` from `x8h7_drv.c`: enqueue; on enqueue failure return
the enqueue error with the state untouched by the exchange; otherwise
perform the exchange and return its result (both C branches after
`x8h7_pkt_send` return its `ret`).
-/
def x8h7_pkt_send_sync (peripheral opcode size : Nat) (data : Option (Nat → Nat))
    (trx : Int) (rxIn : Nat → Nat) (hooks : Nat → Bool) (dbg : Bool) (fuel : Nat)
    (txb rxb : Nat → Nat) (txl : Nat) : SendRes :=
  let e := x8h7_pkt_enq peripheral opcode size data txb txl
  if e.1 < 0 then
    { ret := e.1, tap := false, disp := [], txb := e.2.1, rxb := rxb, txl := e.2.2 }
  else
    x8h7_pkt_send trx rxIn hooks dbg fuel e.2.1 rxb e.2.2

/-- `x8h7_hook_set` from `x8h7_drv.c`: install (or clear) the handler slot
for a peripheral index; rejects `idx >= X8H7_PERIPH_NUM` with `-1`. -/
def x8h7_hook_set (idx : Nat) (hook : Bool) (tbl : Nat → Bool) : Int × (Nat → Bool) :=
  if idx ≥ X8H7_PERIPH_NUM then
    (-1, tbl)
  else
    (0, fun j => if j = idx then hook else tbl j)

/-! ### Sequences of enqueue calls (for the round-trip law) -/

/-- The arguments of one `x8h7_pkt_enq` call. -/
structure EnqCall where
  per : Nat
  op : Nat
  sz : Nat
  data : Option (Nat → Nat)

/-- Total encoded size of a call sequence: each sub-packet contributes its
4-byte `x8h7_subpkt_t` record plus its payload. -/
def sumSz : List EnqCall → Nat
  | [] => 0
  | c :: cs => 4 + c.sz + sumSz cs

/-- The packet a handler should receive for an enqueued sub-packet. -/
def toPkt (c : EnqCall) : x8h7_pkt :=
  ⟨c.per, c.op, c.sz, (List.range c.sz).map (payloadByte c.data)⟩

/-- Run a sequence of `x8h7_pkt_enq` calls; the Boolean records whether
every call returned 0. -/
def enqFold : List EnqCall → (Nat → Nat) → Nat → (Nat → Nat) × Nat × Bool
  | [], b, t => (b, t, true)
  | c :: cs, b, t =>
    let e := x8h7_pkt_enq c.per c.op c.sz c.data b t
    let r := enqFold cs e.2.1 e.2.2
    (r.1, r.2.1, decide (e.1 = 0) && r.2.2)

/-- The buffer `b` holds, starting at offset `pos`, the consecutive wire
encodings of the given sub-packets. -/
def Enc (b : Nat → Nat) : Nat → List EnqCall → Prop
  | _, [] => True
  | pos, c :: cs =>
      get8 b pos = c.per ∧ get8 b (pos + 1) = c.op ∧ get16 b (pos + 2) = c.sz ∧
      (∀ i, i < c.sz → get8 b (pos + 4 + i) = payloadByte c.data i) ∧
      Enc b (pos + 4 + c.sz) cs

/-! ### Concrete frames used as counterexamples / failing inputs -/

/-- Inbound frame whose header fails the integrity check (`size = 8`,
`checksum = 0 ≠ 8 XOR 0x5555`) but carries one well-formed sub-packet for
peripheral 1. -/
def c3_rx : Nat → Nat := fun i =>
  if i = 0 then 8 else if i = 4 then 1 else if i = 5 then 2 else if i = 6 then 4
  else if i = 8 then 0xAA else if i = 9 then 0xBB else if i = 10 then 0xCC
  else if i = 11 then 0xDD else 0

/-- Inbound frame with `size = 16`: a 4-byte sub-packet followed by a
record declaring a 248-byte payload that extends past the 256-byte buffer. -/
def c7_rx : Nat → Nat := fun i =>
  if i = 0 then 16 else if i = 4 then 1 else if i = 6 then 4
  else if i = 12 then 1 else if i = 14 then 248 else 0

/-- Inbound frame with `size = 12`: first record `peripheral = 16`,
`payload_size = 0`, then a well-formed record for peripheral 1. -/
def c8_rx : Nat → Nat := fun i =>
  if i = 0 then 12 else if i = 4 then 16
  else if i = 8 then 1 else if i = 9 then 7 else if i = 10 then 4
  else if i = 12 then 0xDE else if i = 13 then 0xAD else 0

/-- Outgoing buffer state after the two enqueues of the spec's scenario:
`{peripheral=1, opcode=0x10, payload=[0xAA,0xBB]}` then
`{peripheral=2, opcode=0x01, payload=[]}`. -/
def c9_buf : Nat → Nat :=
  (x8h7_pkt_enq 2 0x01 0 (some (fun _ => 0))
    (x8h7_pkt_enq 1 0x10 2 (some (fun i => if i = 0 then 0xAA else 0xBB)) zeroBuf 0).2.1
    (x8h7_pkt_enq 1 0x10 2 (some (fun i => if i = 0 then 0xAA else 0xBB)) zeroBuf 0).2.2).2.1

/-- A small concrete enqueue sequence: two sub-packets for peripherals 1
and 2 with nonzero payloads. -/
def c1_calls : List EnqCall :=
  [⟨1, 0x10, 2, some (fun i => if i = 0 then 0xAA else 0xBB)⟩, ⟨2, 1, 1, none⟩]

/-! ### Buffer algebra -/

theorem payloadByte_lt (src : Option (Nat → Nat)) (i : Nat) : payloadByte src i < 256 := by
  cases src with
  | none => norm_num [payloadByte]
  | some d => exact Nat.mod_lt _ (by norm_num)

theorem set8_apply_self (b : Nat → Nat) (i v : Nat) : set8 b i v i = v % 256 := by
  simp [set8]

theorem set8_apply_of_ne (b : Nat → Nat) (i v j : Nat) (h : j ≠ i) :
    set8 b i v j = b j := by
  simp [set8, h]

theorem set16_apply_of_ne (b : Nat → Nat) (i v j : Nat) (h1 : j ≠ i) (h2 : j ≠ i + 1) :
    set16 b i v j = b j := by
  simp [set16, set8_apply_of_ne _ _ _ _ h2, set8_apply_of_ne _ _ _ _ h1]

theorem writeBytes_apply_of_out (b : Nat → Nat) (off len : Nat) (src : Option (Nat → Nat))
    (j : Nat) (h : ¬(off ≤ j ∧ j < off + len)) : writeBytes b off len src j = b j := by
  simp only [writeBytes, if_neg h]

theorem writeBytes_apply_of_in (b : Nat → Nat) (off len : Nat) (src : Option (Nat → Nat))
    (j : Nat) (h1 : off ≤ j) (h2 : j < off + len) :
    writeBytes b off len src j = payloadByte src (j - off) := by
  cases src <;> simp [writeBytes, payloadByte, h1, h2]

theorem get8_congr (b b' : Nat → Nat) (i : Nat) (h : b' i = b i) : get8 b' i = get8 b i := by
  simp [get8, h]

theorem get16_congr (b b' : Nat → Nat) (i : Nat) (h0 : b' i = b i) (h1 : b' (i + 1) = b (i + 1)) :
    get16 b' i = get16 b i := by
  simp [get16, get8, h0, h1]

theorem get16_set16_self (b : Nat → Nat) (i v : Nat) (hv : v < 65536) :
    get16 (set16 b i v) i = v := by
  unfold get16 get8 set16
  rw [set8_apply_of_ne _ _ _ _ (by omega), set8_apply_self, set8_apply_self]
  omega

theorem get16_lt (b : Nat → Nat) (i : Nat) : get16 b i < 65536 := by
  unfold get16 get8; omega

theorem get8_lt (b : Nat → Nat) (i : Nat) : get8 b i < 256 := by
  unfold get8; omega

/-! ### Specification of a successful enqueue -/

theorem x8h7_pkt_enq_success (per op sz : Nat) (data : Option (Nat → Nat))
    (b : Nat → Nat) (t : Nat) (hg : get16 b 0 + 4 + sz < 256) :
    (x8h7_pkt_enq per op sz data b t).1 = 0 ∧
    (x8h7_pkt_enq per op sz data b t).2.2 = get16 b 0 + 4 + sz ∧
    get16 (x8h7_pkt_enq per op sz data b t).2.1 0 = get16 b 0 + 4 + sz ∧
    get16 (x8h7_pkt_enq per op sz data b t).2.1 2 = (get16 b 0 + 4 + sz) ^^^ 0x5555 ∧
    get8 (x8h7_pkt_enq per op sz data b t).2.1 (4 + get16 b 0) = per % 256 ∧
    get8 (x8h7_pkt_enq per op sz data b t).2.1 (4 + get16 b 0 + 1) = op % 256 ∧
    get16 (x8h7_pkt_enq per op sz data b t).2.1 (4 + get16 b 0 + 2) = sz ∧
    (∀ i, i < sz →
      get8 (x8h7_pkt_enq per op sz data b t).2.1 (4 + get16 b 0 + 4 + i) = payloadByte data i) ∧
    (∀ j, 4 ≤ j → j < 4 + get16 b 0 → (x8h7_pkt_enq per op sz data b t).2.1 j = b j) := by
  have hbuf : X8H7_BUF_SIZE = 256 := rfl
  simp only [x8h7_pkt_enq]
  rw [if_pos (show get16 b 0 + 4 + sz < X8H7_BUF_SIZE from by rw [hbuf]; exact hg)]
  set hs := get16 b 0 with hhs
  have hns : (hs + 4 + sz) % 65536 = hs + 4 + sz := Nat.mod_eq_of_lt (by omega)
  set off := 4 + hs with hoff
  set b1 := set8 b off per with hb1
  set b2 := set8 b1 (off + 1) op with hb2
  set b3 := set16 b2 (off + 2) sz with hb3
  set b4 := writeBytes b3 (off + 4) sz data with hb4
  set b5 := set16 b4 0 ((hs + 4 + sz) % 65536) with hb5
  set b6 := set16 b5 2 ((hs + 4 + sz) % 65536 ^^^ 0x5555) with hb6
  refine ⟨rfl, by simpa using hns, ?_, ?_, ?_, ?_, ?_, ?_, ?_⟩
  · -- get16 b6 0 = hs + 4 + sz
    rw [show get16 b6 0 = get16 b5 0 from
      get16_congr _ _ _ (set16_apply_of_ne _ _ _ _ (by omega) (by omega))
        (set16_apply_of_ne _ _ _ _ (by omega) (by omega))]
    rw [hb5, get16_set16_self _ _ _ (by omega), hns]
  · -- get16 b6 2 = (hs + 4 + sz) ^^^ 0x5555
    have hx : (hs + 4 + sz) % 65536 ^^^ 0x5555 < 65536 := by
      have h1 : (hs + 4 + sz) % 65536 < 2 ^ 16 := by norm_num; omega
      have h2 : (0x5555 : Nat) < 2 ^ 16 := by norm_num
      have := Nat.xor_lt_two_pow h1 h2
      norm_num at this; omega
    rw [hb6, get16_set16_self _ _ _ hx, hns]
  · -- peripheral byte
    have e6 : b6 off = b1 off := by
      rw [hb6, set16_apply_of_ne _ _ _ _ (by omega) (by omega),
          hb5, set16_apply_of_ne _ _ _ _ (by omega) (by omega),
          hb4, writeBytes_apply_of_out _ _ _ _ _ (by omega),
          hb3, set16_apply_of_ne _ _ _ _ (by omega) (by omega),
          hb2, set8_apply_of_ne _ _ _ _ (by omega)]
    rw [show get8 b6 off = get8 b1 off from get8_congr _ _ _ e6, hb1, get8]
    rw [set8_apply_self]; omega
  · -- opcode byte
    have e6 : b6 (off + 1) = b2 (off + 1) := by
      rw [hb6, set16_apply_of_ne _ _ _ _ (by omega) (by omega),
          hb5, set16_apply_of_ne _ _ _ _ (by omega) (by omega),
          hb4, writeBytes_apply_of_out _ _ _ _ _ (by omega),
          hb3, set16_apply_of_ne _ _ _ _ (by omega) (by omega)]
    rw [show get8 b6 (off + 1) = get8 b2 (off + 1) from get8_congr _ _ _ e6, hb2, get8]
    rw [set8_apply_self]; omega
  · -- size field
    have e0 : b6 (off + 2) = b3 (off + 2) := by
      rw [hb6, set16_apply_of_ne _ _ _ _ (by omega) (by omega),
          hb5, set16_apply_of_ne _ _ _ _ (by omega) (by omega),
          hb4, writeBytes_apply_of_out _ _ _ _ _ (by omega)]
    have e1 : b6 (off + 2 + 1) = b3 (off + 2 + 1) := by
      rw [hb6, set16_apply_of_ne _ _ _ _ (by omega) (by omega),
          hb5, set16_apply_of_ne _ _ _ _ (by omega) (by omega),
          hb4, writeBytes_apply_of_out _ _ _ _ _ (by omega)]
    rw [get16_congr _ _ _ e0 e1, hb3, get16_set16_self _ _ _ (by omega)]
  · -- payload bytes
    intro i hi
    have e : b6 (off + 4 + i) = b4 (off + 4 + i) := by
      rw [hb6, set16_apply_of_ne _ _ _ _ (by omega) (by omega),
          hb5, set16_apply_of_ne _ _ _ _ (by omega) (by omega)]
    rw [show (4 : Nat) + hs + 4 + i = off + 4 + i by omega]
    rw [show get8 b6 (off + 4 + i) = get8 b4 (off + 4 + i) from get8_congr _ _ _ e]
    rw [hb4, get8, writeBytes_apply_of_in _ _ _ _ _ (by omega) (by omega)]
    rw [show off + 4 + i - (off + 4) = i by omega]
    exact Nat.mod_eq_of_lt (payloadByte_lt data i)
  · -- bytes 4 .. 4+hs-1 untouched
    intro j h4 hj
    show b6 j = b j
    rw [hb6, set16_apply_of_ne _ _ _ _ (by omega) (by omega),
        hb5, set16_apply_of_ne _ _ _ _ (by omega) (by omega),
        hb4, writeBytes_apply_of_out _ _ _ _ _ (by omega),
        hb3, set16_apply_of_ne _ _ _ _ (by omega) (by omega),
        hb2, set8_apply_of_ne _ _ _ _ (by omega),
        hb1, set8_apply_of_ne _ _ _ _ (by omega)]

/-! ### Rejection path of the enqueue -/

theorem enq_reject_of_full (per op sz : Nat) (data : Option (Nat → Nat))
    (b : Nat → Nat) (t : Nat) (h : 256 ≤ get16 b 0 + 4 + sz) :
    x8h7_pkt_enq per op sz data b t = (-12, b, t) := by
  simp only [x8h7_pkt_enq]
  rw [if_neg (by rw [show X8H7_BUF_SIZE = 256 from rfl]; omega)]

theorem enq_success_guard (per op sz : Nat) (data : Option (Nat → Nat))
    (b : Nat → Nat) (t : Nat) (h : (x8h7_pkt_enq per op sz data b t).1 = 0) :
    get16 b 0 + 4 + sz < 256 := by
  by_contra hc
  rw [enq_reject_of_full per op sz data b t (by omega)] at h
  norm_num at h

/-- C2: an enqueue that would make `header.size + 4 + payload_size` reach the
frame capacity returns `-ENOMEM` and leaves the outgoing buffer (header and
queued bytes) and the pending length completely unchanged. -/
theorem C2_capacity_reject (per op sz : Nat) (data : Option (Nat → Nat))
    (b : Nat → Nat) (t : Nat) (h : X8H7_BUF_SIZE ≤ get16 b 0 + 4 + sz) :
    x8h7_pkt_enq per op sz data b t = (-12, b, t) :=
  enq_reject_of_full per op sz data b t h

theorem C2_capacity_reject_witness :
    X8H7_BUF_SIZE ≤ get16 (fun i => if i = 0 then 252 else 0) 0 + 4 + 0 ∧
    x8h7_pkt_enq 1 2 0 none (fun i => if i = 0 then 252 else 0) 252 =
      (-12, (fun i => if i = 0 then 252 else 0), 252) :=
  ⟨by decide, C2_capacity_reject 1 2 0 none (fun i => if i = 0 then 252 else 0) 252 (by decide)⟩

/-- C9: after every successful enqueue the outgoing header satisfies
`checksum = size XOR 0x5555`; and the spec's concrete scenario yields
header size 10 and checksum 0x555F. -/
theorem C9_checksum_invariant :
    (∀ per op sz data b t,
        (x8h7_pkt_enq per op sz data b t).1 = 0 →
        get16 (x8h7_pkt_enq per op sz data b t).2.1 2 =
          get16 (x8h7_pkt_enq per op sz data b t).2.1 0 ^^^ 0x5555) ∧
    get16 c9_buf 0 = 10 ∧ get16 c9_buf 2 = 0x555F := by
  refine ⟨?_, by decide, by decide⟩
  intro per op sz data b t h
  have hg := enq_success_guard per op sz data b t h
  obtain ⟨-, -, e0, e2, -⟩ := x8h7_pkt_enq_success per op sz data b t hg
  rw [e0, e2]

theorem C9_checksum_invariant_witness :
    (x8h7_pkt_enq 3 5 0 none zeroBuf 0).1 = 0 ∧
    get16 (x8h7_pkt_enq 3 5 0 none zeroBuf 0).2.1 2 =
      get16 (x8h7_pkt_enq 3 5 0 none zeroBuf 0).2.1 0 ^^^ 0x5555 :=
  ⟨by decide, C9_checksum_invariant.1 3 5 0 none zeroBuf 0 (by decide)⟩

/-- C6 (failing input for the claimed invariant): enqueuing a 249-byte
payload into an empty buffer is accepted, yet it drives the header size to
253 > `X8H7_BUF_SIZE - 4 = 252`, and the payload write lands on byte offset
256 — outside the 256-byte frame buffer. -/
theorem C6_overflow_evidence :
    (x8h7_pkt_enq 1 0 249 (some (fun _ => 7)) zeroBuf 0).1 = 0 ∧
    get16 (x8h7_pkt_enq 1 0 249 (some (fun _ => 7)) zeroBuf 0).2.1 0 = 253 ∧
    X8H7_BUF_SIZE - 4 < get16 (x8h7_pkt_enq 1 0 249 (some (fun _ => 7)) zeroBuf 0).2.1 0 ∧
    (x8h7_pkt_enq 1 0 249 (some (fun _ => 7)) zeroBuf 0).2.1 X8H7_BUF_SIZE = 7 := by
  refine ⟨by decide, by decide, by decide, by decide⟩

/-- C4 (failing behaviour for the claim): `x8h7_pkt_send` discards the value
returned by the exchange primitive, so even when the transfer fails with a
negative code `e` both `x8h7_pkt_send_now` and (after a successful enqueue)
`x8h7_pkt_send_sync` return 0 — the failure is never surfaced. -/
theorem C4_transport_error_swallowed (e : Int) (he : e < 0)
    (rxIn : Nat → Nat) (hooks : Nat → Bool) (dbg : Bool) (fuel : Nat)
    (txb rxb : Nat → Nat) (txl : Nat) (per op sz : Nat) (data : Option (Nat → Nat)) :
    (x8h7_pkt_send_now e rxIn hooks dbg fuel txb rxb txl).ret = 0 ∧
    ((x8h7_pkt_enq per op sz data txb txl).1 = 0 →
      (x8h7_pkt_send_sync per op sz data e rxIn hooks dbg fuel txb rxb txl).ret = 0) := by
  have _ := he
  constructor
  · rfl
  · intro h
    simp only [x8h7_pkt_send_sync]
    rw [if_neg (by rw [h]; norm_num)]
    rfl

theorem C4_transport_error_swallowed_witness :
    (x8h7_pkt_send_now (-5) zeroBuf (fun _ => false) false 1 zeroBuf zeroBuf 0).ret = 0 ∧
    (x8h7_pkt_send_sync 1 0 0 none (-5) zeroBuf (fun _ => false) false 1 zeroBuf zeroBuf 0).ret
      = 0 := by
  have h := C4_transport_error_swallowed (-5) (by norm_num) zeroBuf (fun _ => false) false 1
    zeroBuf zeroBuf 0 1 0 0 none
  exact ⟨h.1, h.2 (by decide)⟩

theorem pkt_send_resets (trx : Int) (rxIn : Nat → Nat) (hooks : Nat → Bool) (dbg : Bool)
    (fuel : Nat) (txb rxb : Nat → Nat) (txl : Nat) :
    (∀ i, i < X8H7_BUF_SIZE →
      (x8h7_pkt_send trx rxIn hooks dbg fuel txb rxb txl).txb i = 0 ∧
      (x8h7_pkt_send trx rxIn hooks dbg fuel txb rxb txl).rxb i = 0) ∧
    (x8h7_pkt_send trx rxIn hooks dbg fuel txb rxb txl).txl = 0 := by
  refine ⟨fun i hi => ⟨?_, ?_⟩, rfl⟩
  · show (if i < X8H7_BUF_SIZE then 0 else txb i) = 0
    rw [if_pos hi]
  · show (if i < X8H7_BUF_SIZE then 0
          else if i < FIXED_PACKET_LEN then rxIn i % 256 else rxb i) = 0
    rw [if_pos hi]

/-- C5: every exchange entry point — `x8h7_pkt_send` (reached from
`x8h7_pkt_send_now` and from the interrupt handler `x8h7_threaded_isr`),
and `x8h7_pkt_send_sync` once its enqueue succeeded — leaves both 256-byte
buffers all zero and the pending length `x8h7_txl` at 0, whatever the
transfer outcome `trx`, the received frame, the hook table or the
diagnostic tap. -/
theorem C5_buffers_reset (trx : Int) (rxIn : Nat → Nat) (hooks : Nat → Bool) (dbg : Bool)
    (fuel : Nat) (txb rxb : Nat → Nat) (txl : Nat) (per op sz : Nat)
    (data : Option (Nat → Nat)) :
    ((∀ i, i < X8H7_BUF_SIZE →
        (x8h7_pkt_send trx rxIn hooks dbg fuel txb rxb txl).txb i = 0 ∧
        (x8h7_pkt_send trx rxIn hooks dbg fuel txb rxb txl).rxb i = 0) ∧
      (x8h7_pkt_send trx rxIn hooks dbg fuel txb rxb txl).txl = 0) ∧
    ((∀ i, i < X8H7_BUF_SIZE →
        (x8h7_pkt_send_now trx rxIn hooks dbg fuel txb rxb txl).txb i = 0 ∧
        (x8h7_pkt_send_now trx rxIn hooks dbg fuel txb rxb txl).rxb i = 0) ∧
      (x8h7_pkt_send_now trx rxIn hooks dbg fuel txb rxb txl).txl = 0) ∧
    ((∀ i, i < X8H7_BUF_SIZE →
        (x8h7_threaded_isr trx rxIn hooks dbg fuel txb rxb txl).2.txb i = 0 ∧
        (x8h7_threaded_isr trx rxIn hooks dbg fuel txb rxb txl).2.rxb i = 0) ∧
      (x8h7_threaded_isr trx rxIn hooks dbg fuel txb rxb txl).2.txl = 0) ∧
    ((x8h7_pkt_enq per op sz data txb txl).1 = 0 →
      (∀ i, i < X8H7_BUF_SIZE →
        (x8h7_pkt_send_sync per op sz data trx rxIn hooks dbg fuel txb rxb txl).txb i = 0 ∧
        (x8h7_pkt_send_sync per op sz data trx rxIn hooks dbg fuel txb rxb txl).rxb i = 0) ∧
      (x8h7_pkt_send_sync per op sz data trx rxIn hooks dbg fuel txb rxb txl).txl = 0) := by
  refine ⟨pkt_send_resets trx rxIn hooks dbg fuel txb rxb txl,
          pkt_send_resets trx rxIn hooks dbg fuel txb rxb txl,
          pkt_send_resets trx rxIn hooks dbg fuel txb rxb txl, ?_⟩
  intro h
  have hrw : x8h7_pkt_send_sync per op sz data trx rxIn hooks dbg fuel txb rxb txl =
      x8h7_pkt_send trx rxIn hooks dbg fuel
        (x8h7_pkt_enq per op sz data txb txl).2.1 rxb
        (x8h7_pkt_enq per op sz data txb txl).2.2 := by
    simp only [x8h7_pkt_send_sync]
    rw [if_neg (by rw [h]; norm_num)]
  rw [hrw]
  exact pkt_send_resets trx rxIn hooks dbg fuel _ rxb _

theorem C5_buffers_reset_witness :
    (x8h7_pkt_send_sync 1 0 0 none (-5) c3_rx (fun _ => true) false 2 zeroBuf zeroBuf 7).txl
      = 0 ∧
    (x8h7_pkt_send (-5) c3_rx (fun _ => true) false 2 zeroBuf zeroBuf 7).txl = 0 := by
  have h := C5_buffers_reset (-5) c3_rx (fun _ => true) false 2 zeroBuf zeroBuf 7 1 0 0 none
  exact ⟨(h.2.2.2 (by decide)).2, h.1.2⟩

/-- C3 (failing behaviour for the claim): the inbound frame `c3_rx` has a
nonzero header size whose checksum does not match `size XOR 0x5555`, yet
`x8h7_pkt_send` still dispatches its sub-packet to the peripheral-1 handler:
the parse path never verifies the checksum. -/
theorem C3_mismatched_frame_dispatched :
    get16 c3_rx 0 ≠ 0 ∧
    get16 c3_rx 2 ≠ get16 c3_rx 0 ^^^ 0x5555 ∧
    (x8h7_pkt_send 0 c3_rx (fun _ => true) false 2 zeroBuf zeroBuf 0).disp =
      [⟨1, 2, 4, [0xAA, 0xBB, 0xCC, 0xDD]⟩] := by
  refine ⟨by decide, by decide, by decide⟩

/-- C7 (failing behaviour for the claim): on the malformed frame `c7_rx`
the parse loop's `memcpy` source range runs past the receive buffer: byte
offset 263 ≥ `X8H7_BUF_SIZE` is read. -/
theorem C7_out_of_bounds_read :
    X8H7_BUF_SIZE ≤ 263 ∧ 263 ∈ (pkt_parse c7_rx (fun _ => true) 3).2 := by
  refine ⟨by decide, by decide⟩

/-- C8 counterexample: in frame `c8_rx` the first sub-packet record
(offset 4) has `payload_size = 0` — a terminator according to the claim —
yet the record after it is still dispatched, because its `peripheral_id`
is 16 and the early-terminator test sits inside `if (i < X8H7_PERIPH_NUM)`. -/
theorem C8_counterexample :
    get8 c8_rx 4 = 16 ∧ get16 c8_rx 6 = 0 ∧
    (pkt_parse c8_rx (fun _ => true) 2).1 = [⟨1, 7, 4, [0xDE, 0xAD, 0, 0]⟩] := by
  refine ⟨by decide, by decide, by decide⟩

/-- C8 amended: decoding stops at the first record whose `peripheral_id`
is below `X8H7_PERIPH_NUM` and has `peripheral_id = 0` or `payload_size = 0`
(nothing at or after such a record is dispatched); a record with
`peripheral_id ≥ X8H7_PERIPH_NUM` never terminates the loop, even with
`payload_size = 0` — it is skipped and parsing continues. -/
theorem C8_terminator_amended :
    (∀ (rx : Nat → Nat) (hooks : Nat → Bool) (pos size fuel : Nat),
      get8 rx pos < X8H7_PERIPH_NUM →
      (get8 rx pos = 0 ∨ get16 rx (pos + 2) = 0) →
      (parseLoop rx hooks pos size fuel).1 = []) ∧
    (∀ (rx : Nat → Nat) (hooks : Nat → Bool) (pos size fuel : Nat),
      X8H7_PERIPH_NUM ≤ get8 rx pos →
      (parseLoop rx hooks pos size (fuel + 1)).1 =
        (if 0 < sub16 size (4 + get16 rx (pos + 2))
         then (parseLoop rx hooks (pos + 4 + get16 rx (pos + 2))
                 (sub16 size (4 + get16 rx (pos + 2))) fuel).1
         else [])) := by
  constructor
  · intro rx hooks pos size fuel hper hterm
    cases fuel with
    | zero => rfl
    | succ n =>
      simp only [parseLoop]
      rw [if_pos ⟨hper, hterm⟩]
  · intro rx hooks pos size fuel hper
    simp only [parseLoop]
    rw [if_neg (by omega : ¬(get8 rx pos < X8H7_PERIPH_NUM ∧
          (get8 rx pos = 0 ∨ get16 rx (pos + 2) = 0)))]
    rw [if_neg (by omega : ¬(get8 rx pos < X8H7_PERIPH_NUM ∧ hooks (get8 rx pos) = true))]
    by_cases hns : 0 < sub16 size (4 + get16 rx (pos + 2))
    · rw [if_pos hns, if_pos hns]
      simp
    · rw [if_neg hns, if_neg hns]
      simp

theorem C8_terminator_amended_witness :
    get8 c8_rx 8 < X8H7_PERIPH_NUM ∧
    (parseLoop zeroBuf (fun _ => true) 4 12 5).1 = [] ∧
    (parseLoop c8_rx (fun _ => true) 4 12 2).1 =
      (if 0 < sub16 12 (4 + get16 c8_rx 6)
       then (parseLoop c8_rx (fun _ => true) (4 + 4 + get16 c8_rx 6)
               (sub16 12 (4 + get16 c8_rx 6)) 1).1
       else []) :=
  ⟨by decide,
   C8_terminator_amended.1 zeroBuf (fun _ => true) 4 12 5 (by decide) (Or.inl (by decide)),
   C8_terminator_amended.2 c8_rx (fun _ => true) 4 12 1 (by decide)⟩

/-- C10: `x8h7_hook_set` installs the handler and returns 0 exactly for
indices below `X8H7_PERIPH_NUM` (so index 0 included) and rejects the rest
with -1; yet every packet `pkt_parse` dispatches has a nonzero peripheral
id, so a handler registered at index 0 is never invoked. -/
theorem C10_hook_zero_unreachable :
    (∀ (idx : Nat) (hook : Bool) (tbl : Nat → Bool),
      (idx < X8H7_PERIPH_NUM →
        x8h7_hook_set idx hook tbl = (0, fun j => if j = idx then hook else tbl j)) ∧
      (X8H7_PERIPH_NUM ≤ idx → x8h7_hook_set idx hook tbl = (-1, tbl))) ∧
    (∀ (rx : Nat → Nat) (hooks : Nat → Bool) (pos size fuel : Nat) (p : x8h7_pkt),
      p ∈ (parseLoop rx hooks pos size fuel).1 → p.peripheral ≠ 0) := by
  constructor
  · intro idx hook tbl
    constructor
    · intro hidx
      simp only [x8h7_hook_set]
      rw [if_neg (by omega)]
    · intro hidx
      simp only [x8h7_hook_set]
      rw [if_pos (by omega)]
  · intro rx hooks pos size fuel
    induction fuel generalizing pos size with
    | zero =>
      intro p hp
      simp [parseLoop] at hp
    | succ n ih =>
      intro p hp
      simp only [parseLoop] at hp
      by_cases hc : get8 rx pos < X8H7_PERIPH_NUM ∧ (get8 rx pos = 0 ∨ get16 rx (pos + 2) = 0)
      · rw [if_pos hc] at hp
        simp at hp
      · rw [if_neg hc] at hp
        rcases List.mem_append.mp hp with hl | hr
        · by_cases hd : get8 rx pos < X8H7_PERIPH_NUM ∧ hooks (get8 rx pos) = true
          · rw [if_pos hd] at hl
            simp only [List.mem_singleton] at hl
            subst hl
            simp only [ne_eq]
            intro h0
            exact hc ⟨hd.1, Or.inl h0⟩
          · rw [if_neg hd] at hl
            simp at hl
        · by_cases hns : 0 < sub16 size (4 + get16 rx (pos + 2))
          · rw [if_pos hns] at hr
            exact ih _ _ p hr
          · rw [if_neg hns] at hr
            simp at hr

theorem C10_hook_zero_unreachable_witness :
    x8h7_hook_set 0 true (fun _ => false) = (0, fun j => if j = 0 then true else false) ∧
    x8h7_hook_set 16 true (fun _ => false) = (-1, fun _ => false) ∧
    (⟨1, 2, 4, [0xAA, 0xBB, 0xCC, 0xDD]⟩ : x8h7_pkt).peripheral ≠ 0 :=
  ⟨(C10_hook_zero_unreachable.1 0 true (fun _ => false)).1 (by decide),
   (C10_hook_zero_unreachable.1 16 true (fun _ => false)).2 (by decide),
   C10_hook_zero_unreachable.2 c3_rx (fun _ => true) 4 8 2
     ⟨1, 2, 4, [0xAA, 0xBB, 0xCC, 0xDD]⟩ (by decide)⟩

/-! ### The round-trip law -/

theorem sub16_add (e r : Nat) (h : e + r < 65536) : sub16 (e + r) e = r := by
  unfold sub16; omega

theorem sumSz_pos (cs : List EnqCall) (h : cs ≠ []) : 0 < sumSz cs := by
  cases cs with
  | nil => exact absurd rfl h
  | cons c cs => simp [sumSz]

theorem mem_sumSz_le (cs : List EnqCall) (c : EnqCall) (hc : c ∈ cs) :
    4 + c.sz ≤ sumSz cs := by
  induction cs with
  | nil => simp at hc
  | cons d ds ih =>
    rcases List.mem_cons.mp hc with h | h
    · subst h; simp [sumSz]
    · have := ih h; simp [sumSz]; omega

theorem readBytes_congr (b : Nat → Nat) (off len : Nat) (f : Nat → Nat)
    (h : ∀ i, i < len → get8 b (off + i) = f i) :
    readBytes b off len = (List.range len).map f := by
  unfold readBytes
  exact List.map_congr_left (fun i hi => h i (List.mem_range.mp hi))

theorem parseLoop_zeroBuf (hooks : Nat → Bool) (pos size fuel : Nat) :
    (parseLoop zeroBuf hooks pos size fuel).1 = [] := by
  cases fuel with
  | zero => rfl
  | succ n =>
    simp only [parseLoop]
    rw [if_pos ⟨by simp [get8, zeroBuf, X8H7_PERIPH_NUM], Or.inl (by simp [get8, zeroBuf])⟩]

theorem enqFold_spec (cs : List EnqCall) :
    ∀ (b : Nat → Nat) (t : Nat),
      (∀ c ∈ cs, c.per < 256 ∧ c.op < 256) →
      get16 b 0 + sumSz cs ≤ 252 →
      (enqFold cs b t).2.2 = true ∧
      get16 (enqFold cs b t).1 0 = get16 b 0 + sumSz cs ∧
      Enc (enqFold cs b t).1 (4 + get16 b 0) cs ∧
      (∀ j, 4 ≤ j → j < 4 + get16 b 0 → (enqFold cs b t).1 j = b j) := by
  induction cs with
  | nil =>
    intro b t _ _
    exact ⟨rfl, by simp [enqFold, sumSz], trivial, fun j _ _ => rfl⟩
  | cons c cs ih =>
    intro b t hval hcap
    have hsumc : sumSz (c :: cs) = 4 + c.sz + sumSz cs := rfl
    have hg : get16 b 0 + 4 + c.sz < 256 := by omega
    obtain ⟨hret, -, h0, -, hper, hop, hsz, hpay, hpres⟩ :=
      x8h7_pkt_enq_success c.per c.op c.sz c.data b t hg
    have hcap' : get16 (x8h7_pkt_enq c.per c.op c.sz c.data b t).2.1 0 + sumSz cs ≤ 252 := by
      rw [h0]; omega
    have hval' : ∀ c' ∈ cs, c'.per < 256 ∧ c'.op < 256 :=
      fun c' hc' => hval c' (List.mem_cons_of_mem _ hc')
    obtain ⟨hok', h0', henc', hpres'⟩ :=
      ih (x8h7_pkt_enq c.per c.op c.sz c.data b t).2.1
         (x8h7_pkt_enq c.per c.op c.sz c.data b t).2.2 hval' hcap'
    have hBpt : ∀ j, 4 ≤ j → j < 4 + (get16 b 0 + 4 + c.sz) →
        (enqFold (c :: cs) b t).1 j = (x8h7_pkt_enq c.per c.op c.sz c.data b t).2.1 j := by
      intro j hj1 hj2
      show (enqFold cs (x8h7_pkt_enq c.per c.op c.sz c.data b t).2.1
              (x8h7_pkt_enq c.per c.op c.sz c.data b t).2.2).1 j = _
      exact hpres' j hj1 (by rw [h0]; omega)
    have hBgoal : (enqFold (c :: cs) b t).1 =
        (enqFold cs (x8h7_pkt_enq c.per c.op c.sz c.data b t).2.1
          (x8h7_pkt_enq c.per c.op c.sz c.data b t).2.2).1 := rfl
    refine ⟨?_, ?_, ?_, ?_⟩
    · show (decide ((x8h7_pkt_enq c.per c.op c.sz c.data b t).1 = 0) &&
        (enqFold cs (x8h7_pkt_enq c.per c.op c.sz c.data b t).2.1
          (x8h7_pkt_enq c.per c.op c.sz c.data b t).2.2).2.2) = true
      rw [hret, hok']
      simp
    · rw [hBgoal, h0', h0, hsumc]; omega
    · have hperlt := (hval c (List.mem_cons_self c cs)).1
      have hoplt := (hval c (List.mem_cons_self c cs)).2
      simp only [Enc]
      refine ⟨?_, ?_, ?_, ?_, ?_⟩
      · rw [show get8 (enqFold (c :: cs) b t).1 (4 + get16 b 0) =
            get8 (x8h7_pkt_enq c.per c.op c.sz c.data b t).2.1 (4 + get16 b 0) from
          get8_congr _ _ _ (hBpt _ (by omega) (by omega))]
        rw [hper, Nat.mod_eq_of_lt hperlt]
      · rw [show get8 (enqFold (c :: cs) b t).1 (4 + get16 b 0 + 1) =
            get8 (x8h7_pkt_enq c.per c.op c.sz c.data b t).2.1 (4 + get16 b 0 + 1) from
          get8_congr _ _ _ (hBpt _ (by omega) (by omega))]
        rw [hop, Nat.mod_eq_of_lt hoplt]
      · rw [get16_congr _ _ _ (hBpt _ (by omega) (by omega)) (hBpt _ (by omega) (by omega))]
        exact hsz
      · intro i hi
        rw [show get8 (enqFold (c :: cs) b t).1 (4 + get16 b 0 + 4 + i) =
            get8 (x8h7_pkt_enq c.per c.op c.sz c.data b t).2.1 (4 + get16 b 0 + 4 + i) from
          get8_congr _ _ _ (hBpt _ (by omega) (by omega))]
        exact hpay i hi
      · have hpos : 4 + get16 b 0 + 4 + c.sz = 4 + (get16 b 0 + 4 + c.sz) := by omega
        rw [hBgoal, hpos]
        rw [show get16 b 0 + 4 + c.sz =
            get16 (x8h7_pkt_enq c.per c.op c.sz c.data b t).2.1 0 from h0.symm]
        exact henc'
    · intro j hj1 hj2
      rw [hBpt j hj1 (by omega)]
      exact hpres j hj1 hj2

theorem parse_of_enc (cs : List EnqCall) :
    ∀ (rx : Nat → Nat) (hooks : Nat → Bool) (pos fuel : Nat),
      cs ≠ [] →
      Enc rx pos cs →
      (∀ c ∈ cs, 1 ≤ c.per ∧ c.per < X8H7_PERIPH_NUM ∧ 1 ≤ c.sz ∧ c.sz ≤ X8H7_PKT_SIZE ∧
        hooks c.per = true) →
      sumSz cs < 65536 →
      cs.length ≤ fuel →
      (parseLoop rx hooks pos (sumSz cs) fuel).1 = cs.map toPkt := by
  induction cs with
  | nil => intro _ _ _ _ h; exact absurd rfl h
  | cons c cs ih =>
    intro rx hooks pos fuel _ henc hval hsum hfuel
    obtain ⟨hper, hop, hsz, hpay, htail⟩ := henc
    obtain ⟨hc1, hc2, hc3, hc4, hc5⟩ := hval c (List.mem_cons_self c cs)
    cases fuel with
    | zero => simp at hfuel
    | succ m =>
      have hsumc : sumSz (c :: cs) = 4 + c.sz + sumSz cs := rfl
      simp only [parseLoop]
      rw [hper, hop, hsz]
      rw [if_neg (by omega : ¬(c.per < X8H7_PERIPH_NUM ∧ (c.per = 0 ∨ c.sz = 0)))]
      rw [if_pos ⟨hc2, hc5⟩]
      rw [if_neg (by omega : ¬(c.sz > X8H7_PKT_SIZE))]
      rw [hsumc, sub16_add (4 + c.sz) (sumSz cs) (by omega)]
      have hrb : readBytes rx (pos + 4) c.sz = (List.range c.sz).map (payloadByte c.data) :=
        readBytes_congr rx (pos + 4) c.sz (payloadByte c.data) hpay
      by_cases hcs : cs = []
      · subst hcs
        rw [show sumSz ([] : List EnqCall) = 0 from rfl]
        norm_num
        simp [toPkt, hrb]
      · rw [if_pos (sumSz_pos cs hcs)]
        have hrec := ih rx hooks (pos + 4 + c.sz) m hcs htail
          (fun c' hc' => hval c' (List.mem_cons_of_mem _ hc'))
          (by omega) (by simpa using hfuel)
        simp only [List.map_cons]
        rw [show (c :: cs).length = cs.length + 1 from rfl] at hfuel
        simp [hrec, toPkt, hrb]

set_option maxRecDepth 8000 in
/-- C1 counterexample: a single enqueue of a 249-byte payload satisfies
every hypothesis of the claim (peripheral 1, nonzero payload, call
accepted), yet the parse of the resulting frame delivers a sub-packet of
size 248 — `pkt_parse` clamps the payload to `X8H7_PKT_SIZE` — not the
enqueued 249-byte sub-packet. -/
theorem C1_roundtrip_counterexample :
    (x8h7_pkt_enq 1 0 249 none zeroBuf 0).1 = 0 ∧
    (pkt_parse (x8h7_pkt_enq 1 0 249 none zeroBuf 0).2.1 (fun _ => true) 1).1 =
      [⟨1, 0, 248, List.replicate 248 0⟩] ∧
    (pkt_parse (x8h7_pkt_enq 1 0 249 none zeroBuf 0).2.1 (fun _ => true) 1).1 ≠
      [toPkt ⟨1, 0, 249, none⟩] := by
  refine ⟨by decide, by decide, by decide⟩

/-- C1 amended: the round-trip law holds under the tightened capacity bound
`sumSz calls ≤ X8H7_BUF_SIZE - 4` (every sub-packet then fits the frame and
no payload exceeds `X8H7_PKT_SIZE`): every call succeeds, and parsing the
resulting encoded frame dispatches exactly the enqueued sequence of
(peripheral, opcode, size, payload) sub-packets, in enqueue order, to the
registered handlers. -/
theorem C1_roundtrip_amended (calls : List EnqCall) (hooks : Nat → Bool) (fuel : Nat)
    (hv : ∀ c ∈ calls, 1 ≤ c.per ∧ c.per < X8H7_PERIPH_NUM ∧ c.op < 256 ∧ 1 ≤ c.sz ∧
      hooks c.per = true)
    (hcap : sumSz calls ≤ X8H7_BUF_SIZE - 4)
    (hfuel : calls.length ≤ fuel) :
    (enqFold calls zeroBuf 0).2.2 = true ∧
    (pkt_parse (enqFold calls zeroBuf 0).1 hooks fuel).1 = calls.map toPkt := by
  have h16 : X8H7_PERIPH_NUM = 16 := rfl
  have hcap' : sumSz calls ≤ 252 := by
    have : X8H7_BUF_SIZE - 4 = 252 := rfl
    omega
  have h0 : get16 zeroBuf 0 = 0 := rfl
  obtain ⟨hok, hhdr, henc, -⟩ := enqFold_spec calls zeroBuf 0
    (fun c hc => ⟨by have := (hv c hc).2.1; omega, (hv c hc).2.2.1⟩)
    (by rw [h0]; omega)
  refine ⟨hok, ?_⟩
  show (parseLoop (enqFold calls zeroBuf 0).1 hooks 4
          (get16 (enqFold calls zeroBuf 0).1 0) fuel).1 = calls.map toPkt
  rw [hhdr, h0, Nat.zero_add]
  rw [h0] at henc
  norm_num at henc
  by_cases hnil : calls = []
  · subst hnil
    rw [show (enqFold [] zeroBuf 0).1 = zeroBuf from rfl, parseLoop_zeroBuf]
    rfl
  · exact parse_of_enc calls (enqFold calls zeroBuf 0).1 hooks 4 fuel hnil henc
      (fun c hc => ⟨(hv c hc).1, (hv c hc).2.1, (hv c hc).2.2.2.1,
        by have := mem_sumSz_le calls c hc
           have : X8H7_PKT_SIZE = 248 := rfl
           omega,
        (hv c hc).2.2.2.2⟩)
      (by omega) hfuel

theorem C1_roundtrip_amended_witness :
    (enqFold c1_calls zeroBuf 0).2.2 = true ∧
    (pkt_parse (enqFold c1_calls zeroBuf 0).1 (fun _ => true) 2).1 = c1_calls.map toPkt :=
  C1_roundtrip_amended c1_calls (fun _ => true) 2
    (by
      intro c hc
      rcases List.mem_cons.mp hc with h | h
      · subst h
        exact ⟨by norm_num, by norm_num [X8H7_PERIPH_NUM], by norm_num, by norm_num, rfl⟩
      · rcases List.mem_cons.mp h with h2 | h2
        · subst h2
          exact ⟨by norm_num, by norm_num [X8H7_PERIPH_NUM], by norm_num, by norm_num, rfl⟩
        · simp at h2)
    (by decide) (by decide)
